import Mathlib

/-!
Shallow embedding of `app.py` (Rockland Concrete CRM): the six-table data
model, the form-save operations (parameterized INSERTs behind truthiness
guards), the list queries (`ORDER BY id DESC`, Activities `WHERE completed=0
ORDER BY due_date ASC`), the stage-totals aggregate
(`GROUP BY stage`/`SUM(value)`/`ORDER BY total DESC`), the overdue filter on
the Reports page, the name-to-id lookup dicts built with `dict(zip(...))`,
schema initialization (`init_schema`), and CSV export on the Settings page.

SQL `REAL` columns are modelled as `ℚ`; nullable columns as `Option`;
`TEXT` as `String`. Auto-increment primary keys are modelled by a `next id`
counter per table, with inserted rows appended in id order, as the storage
backend does.
-/

namespace CRM

/-- Calendar date, as produced by `pd.to_datetime(...).dt.date`. -/
structure Date where
  year : Nat
  month : Nat
  day : Nat
deriving DecidableEq, Repr

/-- Strict date comparison (lexicographic year, month, day), the order
`pandas` uses when comparing `date` objects. -/
def dateLt (a b : Date) : Bool :=
  a.year < b.year ∨ (a.year = b.year ∧
    (a.month < b.month ∨ (a.month = b.month ∧ a.day < b.day)))

def isLeap (y : Nat) : Bool :=
  (y % 4 == 0 && y % 100 != 0) || y % 400 == 0

def daysInMonth (y m : Nat) : Nat :=
  if m == 2 then (if isLeap y then 29 else 28)
  else if m == 4 || m == 6 || m == 9 || m == 11 then 30
  else 31

/-- Parse a decimal numeral; `none` when the string is empty or has a
non-digit character. -/
def parseNatDigits (s : String) : Option Nat :=
  if s.length > 0 && s.all (·.isDigit) then
    some (s.foldl (fun n c => n * 10 + (c.toNat - 48)) 0)
  else none

/-- Models `pd.to_datetime(s, errors="coerce")` on the ISO `YYYY-MM-DD`
strings this application stores (they come from `st.date_input(...).isoformat()`):
a valid date parses, anything else coerces to `NaT`, i.e. `none`. -/
def parseDate (s : String) : Option Date :=
  match s.splitOn "-" with
  | [ys, ms, ds] =>
    match parseNatDigits ys, parseNatDigits ms, parseNatDigits ds with
    | some y, some m, some d =>
      if 1 ≤ m && m ≤ 12 && 1 ≤ d && d ≤ daysInMonth y m then
        some ⟨y, m, d⟩
      else none
    | _, _, _ => none
  | _ => none

/-! ### Rows of the six tables (schema of `SCHEMA_SQLITE`) -/

structure Account where
  id : Nat
  name : String
  type : String
  region : String
  credit_limit : ℚ
  payment_terms : String
  risk_rating : String
deriving DecidableEq, Repr

structure Contact where
  id : Nat
  account_id : Option Nat
  name : String
  role : String
  email : String
  phone : String
deriving DecidableEq, Repr

structure Opportunity where
  id : Nat
  account_id : Option Nat
  name : String
  stage : String
  expected_close_date : String
  value : Option ℚ
  product_type : String
  region : String
  probability : ℚ
  source : String
deriving DecidableEq, Repr

structure Quote where
  id : Nat
  opportunity_id : Option Nat
  quote_number : String
  date : String
  status : String
  total_value : ℚ
  currency : String
  price_index_clause : Nat
deriving DecidableEq, Repr

structure QuoteItem where
  id : Nat
  quote_id : Option Nat
  description : String
  unit : String
  qty : ℚ
  unit_price : ℚ
  lead_time_days : Nat
deriving DecidableEq, Repr

structure Activity where
  id : Nat
  account_id : Option Nat
  opportunity_id : Option Nat
  type : String
  subject : String
  due_date : String
  owner : String
  notes : String
  completed : Nat
deriving DecidableEq, Repr

/-- The database state: the six tables (rows in insertion order, as the
backend stores them) and the next auto-increment key of each. -/
structure DB where
  accounts : List Account
  contacts : List Contact
  opportunities : List Opportunity
  quotes : List Quote
  quote_items : List QuoteItem
  activities : List Activity
  next_account_id : Nat
  next_contact_id : Nat
  next_opportunity_id : Nat
  next_quote_id : Nat
  next_quote_item_id : Nat
  next_activity_id : Nat
deriving Repr

/-- A fresh database, as `init_schema` leaves it (SQLite auto-increment
keys start at 1). -/
def emptyDB : DB :=
  { accounts := [], contacts := [], opportunities := [], quotes := []
    quote_items := [], activities := []
    next_account_id := 1, next_contact_id := 1, next_opportunity_id := 1
    next_quote_id := 1, next_quote_item_id := 1, next_activity_id := 1 }

/-! ### `ORDER BY`: a stable sort, as the SQLite backend produces for these
scans. `insertOrdered lt a l` places `a` before the first element `b` of `l`
with `¬ lt b a`, so elements the comparison cannot distinguish keep their
original relative order. -/

def insertOrdered (lt : α → α → Bool) (a : α) : List α → List α
  | [] => [a]
  | b :: bs => if lt b a then b :: insertOrdered lt a bs else a :: b :: bs

def sortOrdered (lt : α → α → Bool) : List α → List α
  | [] => []
  | a :: rest => insertOrdered lt a (sortOrdered lt rest)

/-! ### `dict(zip(names, ids))`: a Python dict built by inserting the pairs
in listing order, a later pair with the same key overwriting the earlier. -/

def buildMap (l : List (String × Nat)) : String → Option Nat :=
  l.foldl (fun m p => fun k => if k = p.1 then some p.2 else m k) (fun _ => none)

/-! ### Name-to-id lookup dicts

`accounts = q("SELECT id, name FROM accounts ORDER BY name")` then
`acct_name_to_id = dict(zip(accounts["name"], accounts["id"]))` (Contacts,
Opportunities and Activities pages). The listing is sorted by name (stably,
insertion order among equal names), and the dict is built pair by pair. -/

def accountsByName (db : DB) : List Account :=
  sortOrdered (fun a b => a.name < b.name) db.accounts

def acctNameToId (db : DB) : String → Option Nat :=
  buildMap ((accountsByName db).map (fun a => (a.name, a.id)))

/-- `opps = q("SELECT id, name FROM opportunities ORDER BY id DESC")` on the
Quotes and Activities pages. -/
def oppsByIdDesc (db : DB) : List Opportunity :=
  sortOrdered (fun a b => b.id < a.id) db.opportunities

def oppNameToId (db : DB) : String → Option Nat :=
  buildMap ((oppsByIdDesc db).map (fun o => (o.name, o.id)))

/-! ### Create operations (form submit handlers)

Each mirrors the page's `if save and <required truthy fields>:` guard
followed by one `INSERT`. Python truthiness of a string is non-emptiness.
The returned `Option String` is the `st.success("Saved.")` confirmation:
`none` means nothing was shown (and nothing written). -/

def accountsSave (db : DB) (save : Bool) (name ty region : String)
    (cl : ℚ) (terms risk : String) : DB × Option String :=
  if save && name ≠ "" then
    ({ db with
        accounts := db.accounts ++
          [⟨db.next_account_id, name, ty, region, cl, terms, risk⟩]
        next_account_id := db.next_account_id + 1 }, some "Saved.")
  else (db, none)

def contactsSave (db : DB) (save : Bool) (acct name role email phone : String) :
    DB × Option String :=
  if save && acct ≠ "" && name ≠ "" then
    ({ db with
        contacts := db.contacts ++
          [⟨db.next_contact_id, acctNameToId db acct, name, role, email, phone⟩]
        next_contact_id := db.next_contact_id + 1 }, some "Saved.")
  else (db, none)

def opportunitiesSave (db : DB) (save : Bool) (acct name stage ecd : String)
    (value : ℚ) (ptype region : String) (prob : ℚ) (src : String) :
    DB × Option String :=
  if save && acct ≠ "" && name ≠ "" then
    ({ db with
        opportunities := db.opportunities ++
          [⟨db.next_opportunity_id, acctNameToId db acct, name, stage, ecd,
            some value, ptype, region, prob, src⟩]
        next_opportunity_id := db.next_opportunity_id + 1 }, some "Saved.")
  else (db, none)

def quotesSave (db : DB) (save : Bool) (opp qnum qdate status : String)
    (total : ℚ) (curr : String) (priceIndex : Bool) : DB × Option String :=
  if save && opp ≠ "" && qnum ≠ "" then
    ({ db with
        quotes := db.quotes ++
          [⟨db.next_quote_id, oppNameToId db opp, qnum, qdate, status, total,
            curr, if priceIndex then 1 else 0⟩]
        next_quote_id := db.next_quote_id + 1 }, some "Saved.")
  else (db, none)

/-- The Activities page submit handler: `if save:` with no further guard;
`acct_name_to_id.get(account)` and `opp_name_to_id.get(opportunity)` give
`None` when the selection is not a key of the dict. -/
def activitiesSave (db : DB) (save : Bool) (account opportunity ty subject
    due owner notes : String) (completed : Bool) : DB × Option String :=
  if save then
    ({ db with
        activities := db.activities ++
          [⟨db.next_activity_id, acctNameToId db account,
            oppNameToId db opportunity, ty, subject, due, owner, notes,
            if completed then 1 else 0⟩]
        next_activity_id := db.next_activity_id + 1 }, some "Saved.")
  else (db, none)

/-! ### List queries -/

/-- `SELECT * FROM accounts ORDER BY id DESC` (Accounts page). -/
def listAccounts (db : DB) : List Account :=
  sortOrdered (fun a b => b.id < a.id) db.accounts

/-- `a.name AS account` of the `LEFT JOIN accounts a ON a.id=c.account_id`:
the joined display name, `none` when the reference is null or dangling. -/
def accountNameById (db : DB) (aid : Option Nat) : Option String :=
  match aid with
  | none => none
  | some i => (db.accounts.find? (fun a => a.id == i)).map (·.name)

def oppNameById (db : DB) (oid : Option Nat) : Option String :=
  match oid with
  | none => none
  | some i => (db.opportunities.find? (fun o => o.id == i)).map (·.name)

structure ContactRow where
  id : Nat
  account : Option String
  name : String
  role : String
  email : String
  phone : String
deriving DecidableEq, Repr

def contactRow (db : DB) (c : Contact) : ContactRow :=
  ⟨c.id, accountNameById db c.account_id, c.name, c.role, c.email, c.phone⟩

/-- `SELECT c.id, a.name AS account, c.name, c.role, c.email, c.phone FROM
contacts c LEFT JOIN accounts a ON a.id=c.account_id ORDER BY c.id DESC`. -/
def listContacts (db : DB) : List ContactRow :=
  sortOrdered (fun a b => b.id < a.id) (db.contacts.map (contactRow db))

structure OppRow where
  id : Nat
  account : Option String
  name : String
  stage : String
  value : Option ℚ
  expected_close_date : String
deriving DecidableEq, Repr

def oppRow (db : DB) (o : Opportunity) : OppRow :=
  ⟨o.id, accountNameById db o.account_id, o.name, o.stage, o.value,
    o.expected_close_date⟩

/-- `SELECT o.id, a.name AS account, o.name, o.stage, o.value,
o.expected_close_date FROM opportunities o LEFT JOIN accounts a ON
a.id=o.account_id ORDER BY o.id DESC` (Opportunities board). -/
def listOpportunities (db : DB) : List OppRow :=
  sortOrdered (fun a b => b.id < a.id) (db.opportunities.map (oppRow db))

structure QuoteRow where
  id : Nat
  opportunity : Option String
  quote_number : String
  date : String
  status : String
  total_value : ℚ
  currency : String
  price_index_clause : Nat
deriving DecidableEq, Repr

def quoteRow (db : DB) (qu : Quote) : QuoteRow :=
  ⟨qu.id, oppNameById db qu.opportunity_id, qu.quote_number, qu.date,
    qu.status, qu.total_value, qu.currency, qu.price_index_clause⟩

/-- `SELECT q.id, o.name AS opportunity, ... FROM quotes q LEFT JOIN
opportunities o ON o.id=q.opportunity_id ORDER BY q.id DESC`. -/
def listQuotes (db : DB) : List QuoteRow :=
  sortOrdered (fun a b => b.id < a.id) (db.quotes.map (quoteRow db))

/-- `SELECT * FROM activities WHERE completed=0 ORDER BY due_date ASC`
(Open Activities). SQLite orders the TEXT dates lexicographically. -/
def listActivities (db : DB) : List Activity :=
  sortOrdered (fun a b => a.due_date < b.due_date)
    (db.activities.filter (fun a => a.completed == 0))

/-! ### Pipeline aggregator -/

/-- Sum of `value` over exactly the rows with stage `s`, a null value
counting as zero (`COALESCE(SUM(value),0)` over the group). -/
def sumValueFor (rows : List Opportunity) (s : String) : ℚ :=
  ((rows.filter (fun r => r.stage == s)).map (fun r => r.value.getD 0)).sum

/-- `SELECT stage, COALESCE(SUM(value),0) AS total FROM opportunities
GROUP BY stage ORDER BY total DESC` (Dashboard and Reports pages). -/
def stageTotals (rows : List Opportunity) : List (String × ℚ) :=
  sortOrdered (fun a b => b.2 < a.2)
    (((rows.map (·.stage)).dedup).map (fun s => (s, sumValueFor rows s)))

/-- What the Dashboard renders: `st.info` when the query result is empty,
the bar chart otherwise. -/
inductive DashView where
  | noData
  | chart (rows : List (String × ℚ))
deriving DecidableEq, Repr

def dashboardView (db : DB) : DashView :=
  let opps := stageTotals db.opportunities
  if opps.isEmpty then .noData else .chart opps

/-- The terminal stages of the Reports-page overdue filter. -/
def terminalStages : List String := ["Closed Won", "Closed Lost"]

/-- The Reports-page overdue filter over `SELECT * FROM opportunities`:
keep rows whose stage is not terminal, whose `expected_close_date` parses
(`errors="coerce"` turns failures into `NaT`, which fails `notna`), and
whose parsed date is strictly before today. -/
def overdueRows (today : Date) (rows : List Opportunity) : List Opportunity :=
  rows.filter (fun r =>
    !(terminalStages.contains r.stage) &&
      (match parseDate r.expected_close_date with
       | some d => dateLt d today
       | none => false))

/-! ### Schema manager (`init_schema`)

`SCHEMA_SQLITE` is split on `";"` into six `CREATE TABLE IF NOT EXISTS`
statements, each executed in its own `engine.begin()` transaction. A
statement is modelled by the table it creates (name and column list, in
schema order); the storage structure is the list of existing tables. -/

structure TableDef where
  name : String
  cols : List String
deriving DecidableEq, Repr

abbrev SchemaState := List TableDef

/-- Effect of one `CREATE TABLE IF NOT EXISTS` statement: a no-op when a
table of that name exists, otherwise the table is added. -/
def applyCreate (s : SchemaState) (t : TableDef) : SchemaState :=
  if s.any (fun u => u.name == t.name) then s else s ++ [t]

def accountsCols : List String :=
  ["id", "name", "type", "region", "credit_limit", "payment_terms", "risk_rating"]

def contactsCols : List String :=
  ["id", "account_id", "name", "role", "email", "phone"]

def opportunitiesCols : List String :=
  ["id", "account_id", "name", "stage", "expected_close_date", "value",
   "product_type", "region", "probability", "source"]

def quotesCols : List String :=
  ["id", "opportunity_id", "quote_number", "date", "status", "total_value",
   "currency", "price_index_clause"]

def quoteItemsCols : List String :=
  ["id", "quote_id", "description", "unit", "qty", "unit_price", "lead_time_days"]

def activitiesCols : List String :=
  ["id", "account_id", "opportunity_id", "type", "subject", "due_date",
   "owner", "notes", "completed"]

/-- The six statements of `SCHEMA_SQLITE`, in DDL order. -/
def schemaStmts : List TableDef :=
  [⟨"accounts", accountsCols⟩, ⟨"contacts", contactsCols⟩,
   ⟨"opportunities", opportunitiesCols⟩, ⟨"quotes", quotesCols⟩,
   ⟨"quote_items", quoteItemsCols⟩, ⟨"activities", activitiesCols⟩]

/-- `init_schema()`: run the six statements in order (the error-free run;
`runStmts` below models the failing run). -/
def init_schema (s : SchemaState) : SchemaState :=
  schemaStmts.foldl applyCreate s

def tableNames (s : SchemaState) : List String := s.map (·.name)

/-- The statement loop of `init_schema` with failure: each statement runs in
its own `with engine.begin()` transaction (`exec`, `none` = the statement
raises), and an exception stops the loop, leaving the already committed
state in place. The `Bool` is `true` when every statement succeeded. -/
def runStmts (exec : TableDef → SchemaState → Option SchemaState) :
    List TableDef → SchemaState → SchemaState × Bool
  | [], s => (s, true)
  | st :: rest, s =>
    match exec st s with
    | none => (s, false)
    | some s1 => runStmts exec rest s1

/-- All statements succeed in order, yielding the final state. -/
def runAll (exec : TableDef → SchemaState → Option SchemaState) :
    List TableDef → SchemaState → Option SchemaState
  | [], s => some s
  | st :: rest, s => (exec st s).bind (runAll exec rest)

/-- A concrete failure model: the backend raises on the `quotes` DDL
statement (say, a permissions error) and executes every other statement
normally. -/
def execFailQuotes (t : TableDef) (s : SchemaState) : Option SchemaState :=
  if t.name == "quotes" then none else some (applyCreate s t)

/-! ### CSV export (Settings page)

`df.to_csv(index=False)` writes the header line then one line per row. -/

def csvLine (cells : List String) : String :=
  String.intercalate "," cells ++ "\n"

def toCsv (header : List String) (rows : List (List String)) : String :=
  csvLine header ++ String.join (rows.map csvLine)

def showOptNat : Option Nat → String
  | none => ""
  | some n => toString n

def showOptRat : Option ℚ → String
  | none => ""
  | some v => toString v

def accountCells (a : Account) : List String :=
  [toString a.id, a.name, a.type, a.region, toString a.credit_limit,
   a.payment_terms, a.risk_rating]

def contactCells (c : Contact) : List String :=
  [toString c.id, showOptNat c.account_id, c.name, c.role, c.email, c.phone]

def opportunityCells (o : Opportunity) : List String :=
  [toString o.id, showOptNat o.account_id, o.name, o.stage,
   o.expected_close_date, showOptRat o.value, o.product_type, o.region,
   toString o.probability, o.source]

def quoteCells (qu : Quote) : List String :=
  [toString qu.id, showOptNat qu.opportunity_id, qu.quote_number, qu.date,
   qu.status, toString qu.total_value, qu.currency,
   toString qu.price_index_clause]

def quoteItemCells (qi : QuoteItem) : List String :=
  [toString qi.id, showOptNat qi.quote_id, qi.description, qi.unit,
   toString qi.qty, toString qi.unit_price, toString qi.lead_time_days]

def activityCells (a : Activity) : List String :=
  [toString a.id, showOptNat a.account_id, showOptNat a.opportunity_id,
   a.type, a.subject, a.due_date, a.owner, a.notes, toString a.completed]

/-- The fixed internal table list the Settings page iterates over. -/
def exportTables : List String :=
  ["accounts", "contacts", "opportunities", "quotes", "quote_items", "activities"]

def columnsOf (t : String) : List String :=
  if t = "accounts" then accountsCols
  else if t = "contacts" then contactsCols
  else if t = "opportunities" then opportunitiesCols
  else if t = "quotes" then quotesCols
  else if t = "quote_items" then quoteItemsCols
  else if t = "activities" then activitiesCols
  else []

def tableCsvRows (db : DB) (t : String) : List (List String) :=
  if t = "accounts" then db.accounts.map accountCells
  else if t = "contacts" then db.contacts.map contactCells
  else if t = "opportunities" then db.opportunities.map opportunityCells
  else if t = "quotes" then db.quotes.map quoteCells
  else if t = "quote_items" then db.quote_items.map quoteItemCells
  else if t = "activities" then db.activities.map activityCells
  else []

/-- `q(f"SELECT * FROM {table}")` then `df.to_csv(index=False)`. -/
def exportCsv (db : DB) (t : String) : String :=
  toCsv (columnsOf t) (tableCsvRows db t)

/-! ## Lemmas about the sort, the dict and the aggregate -/

theorem insertOrdered_perm (lt : α → α → Bool) (a : α) :
    ∀ l : List α, List.Perm (insertOrdered lt a l) (a :: l)
  | [] => List.Perm.refl _
  | b :: bs => by
    unfold insertOrdered
    by_cases h : lt b a = true
    · rw [if_pos h]
      exact ((insertOrdered_perm lt a bs).cons b).trans (List.Perm.swap a b bs)
    · rw [if_neg h]

theorem sortOrdered_perm (lt : α → α → Bool) :
    ∀ l : List α, List.Perm (sortOrdered lt l) l
  | [] => List.Perm.refl _
  | a :: rest =>
    (insertOrdered_perm lt a (sortOrdered lt rest)).trans
      ((sortOrdered_perm lt rest).cons a)

theorem mem_insertOrdered {lt : α → α → Bool} {a x : α} {l : List α} :
    x ∈ insertOrdered lt a l ↔ x = a ∨ x ∈ l := by
  rw [(insertOrdered_perm lt a l).mem_iff, List.mem_cons]

theorem mem_sortOrdered {lt : α → α → Bool} {x : α} {l : List α} :
    x ∈ sortOrdered lt l ↔ x ∈ l :=
  (sortOrdered_perm lt l).mem_iff

theorem pairwise_insertOrdered (lt : α → α → Bool)
    (asymm : ∀ x y, lt x y = true → lt y x = false)
    (negtrans : ∀ x y z, lt x z = true → lt x y = true ∨ lt y z = true)
    (a : α) : ∀ l : List α, l.Pairwise (fun x y => lt y x = false) →
      (insertOrdered lt a l).Pairwise (fun x y => lt y x = false)
  | [], _ => List.pairwise_singleton _ a
  | b :: bs, h => by
    rcases List.pairwise_cons.mp h with ⟨hb, hbs⟩
    unfold insertOrdered
    by_cases hba : lt b a = true
    · simp only [hba, if_pos]
      refine List.pairwise_cons.mpr ⟨?_, pairwise_insertOrdered lt asymm negtrans a bs hbs⟩
      intro x hx
      rcases mem_insertOrdered.mp hx with rfl | hx
      · exact asymm b _ hba
      · exact hb x hx
    · simp only [hba, if_neg]
      refine List.pairwise_cons.mpr ⟨?_, h⟩
      intro x hx
      rcases List.mem_cons.mp hx with rfl | hx
      · exact Bool.eq_false_iff.mpr hba
      · by_contra hxa
        rcases negtrans x b a (eq_true_of_ne_false hxa) with h1 | h2
        · exact absurd (hb x hx) (by simp [h1])
        · exact hba h2

theorem pairwise_sortOrdered (lt : α → α → Bool)
    (asymm : ∀ x y, lt x y = true → lt y x = false)
    (negtrans : ∀ x y z, lt x z = true → lt x y = true ∨ lt y z = true) :
    ∀ l : List α, (sortOrdered lt l).Pairwise (fun x y => lt y x = false)
  | [] => List.Pairwise.nil
  | a :: rest =>
    pairwise_insertOrdered lt asymm negtrans a (sortOrdered lt rest)
      (pairwise_sortOrdered lt asymm negtrans rest)

/-- Stability of the sort, seen through a filter: when the comparison never
separates two elements satisfying `p`, filtering the sorted list by `p`
gives back the filtered input in its original order. -/
theorem filter_insertOrdered (lt : α → α → Bool) (p : α → Bool) (a : α)
    (hkey : p a = true → ∀ b, p b = true → lt b a = false) :
    ∀ l : List α, (insertOrdered lt a l).filter p =
      if p a then a :: l.filter p else l.filter p
  | [] => by by_cases h : p a <;> simp [insertOrdered, List.filter, h]
  | b :: bs => by
    unfold insertOrdered
    by_cases hba : lt b a = true
    · rw [if_pos hba]
      by_cases hpa : p a = true
      · have hpb : ¬ p b = true := by
          intro hpb
          rw [hkey hpa b hpb] at hba
          exact Bool.false_ne_true hba
        rw [if_pos hpa, List.filter_cons_of_neg hpb,
          List.filter_cons_of_neg hpb, filter_insertOrdered lt p a hkey bs,
          if_pos hpa]
      · rw [if_neg hpa]
        by_cases hpb : p b = true
        · rw [List.filter_cons_of_pos hpb, List.filter_cons_of_pos hpb,
            filter_insertOrdered lt p a hkey bs, if_neg hpa]
        · rw [List.filter_cons_of_neg hpb, List.filter_cons_of_neg hpb,
            filter_insertOrdered lt p a hkey bs, if_neg hpa]
    · rw [if_neg hba]
      by_cases hpa : p a = true
      · rw [if_pos hpa, List.filter_cons_of_pos hpa]
      · rw [if_neg hpa, List.filter_cons_of_neg hpa]

theorem filter_sortOrdered (lt : α → α → Bool) (p : α → Bool)
    (hkey : ∀ a b, p a = true → p b = true → lt b a = false) :
    ∀ l : List α, (sortOrdered lt l).filter p = l.filter p
  | [] => rfl
  | a :: rest => by
    unfold sortOrdered
    rw [filter_insertOrdered lt p a (fun hpa b hpb => hkey a b hpa hpb)]
    by_cases hpa : p a = true
    · rw [if_pos hpa, filter_sortOrdered lt p hkey rest,
        List.filter_cons_of_pos hpa]
    · rw [if_neg hpa, filter_sortOrdered lt p hkey rest,
        List.filter_cons_of_neg (by simpa using hpa)]

theorem buildMap_concat (l : List (String × Nat)) (p : String × Nat) (k : String) :
    buildMap (l ++ [p]) k = if k = p.1 then some p.2 else buildMap l k := by
  simp [buildMap, List.foldl_append]

theorem buildMap_filter (k : String) :
    ∀ l : List (String × Nat),
      buildMap l k = buildMap (l.filter (fun p => p.1 == k)) k := by
  intro l
  induction l using List.reverseRecOn with
  | nil => rfl
  | append_singleton l p ih =>
    rw [buildMap_concat, List.filter_append]
    by_cases h : k = p.1
    · rw [if_pos h, List.filter_cons_of_pos (by simp [h]), List.filter_nil,
        buildMap_concat, if_pos h]
    · rw [if_neg h, List.filter_cons_of_neg (by simp [Ne.symm h]),
        List.filter_nil, List.append_nil, ih]

theorem buildMap_of_not_mem (l : List (String × Nat)) (k : String)
    (h : ∀ p ∈ l, p.1 ≠ k) : buildMap l k = none := by
  rw [buildMap_filter, List.filter_eq_nil_iff.mpr (by simpa using h)]
  rfl

/-! ## Claim theorems -/

/-- C1: a row is in the Reports-page overdue set iff it is an opportunity
row whose stage is outside the terminal set (Closed Won / Closed Lost),
whose expected close date parses to a valid date, and whose parsed date is
strictly earlier than today; a row whose date fails to parse is never
overdue. -/
theorem overdue_mem_iff (today : Date) (rows : List Opportunity)
    (r : Opportunity) :
    r ∈ overdueRows today rows ↔
      r ∈ rows ∧ r.stage ∉ terminalStages ∧
        ∃ d, parseDate r.expected_close_date = some d ∧ dateLt d today = true := by
  cases hp : parseDate r.expected_close_date with
  | none => simp [overdueRows, List.mem_filter, hp]
  | some d => simp [overdueRows, List.mem_filter, hp]

/-- C2: the stage-totals aggregate is sorted by descending total, has one
result row per stage, and a pair `(s, t)` is a result row exactly when some
opportunity has stage `s` and `t` is the sum of `value` over exactly the
rows with stage `s`, nulls counting as zero. -/
theorem stageTotals_spec (rows : List Opportunity) :
    (stageTotals rows).Pairwise (fun x y => y.2 ≤ x.2) ∧
    ((stageTotals rows).map Prod.fst).Nodup ∧
    (∀ s t, (s, t) ∈ stageTotals rows ↔
      s ∈ rows.map (·.stage) ∧ t = sumValueFor rows s) := by
  refine ⟨?_, ?_, ?_⟩
  · have h := pairwise_sortOrdered (fun a b : String × ℚ => b.2 < a.2)
      (fun x y hxy => by simp at hxy ⊢; exact le_of_lt hxy)
      (fun x y z hxz => by
        simp at hxz ⊢
        rcases lt_or_le y.2 x.2 with h1 | h1
        · exact Or.inl h1
        · exact Or.inr (lt_of_lt_of_le hxz h1))
      (((rows.map (·.stage)).dedup).map (fun s => (s, sumValueFor rows s)))
    exact h.imp (fun hxy => by simpa using hxy)
  · have hperm : List.Perm ((stageTotals rows).map Prod.fst)
        ((((rows.map (·.stage)).dedup).map
          (fun s => (s, sumValueFor rows s))).map Prod.fst) :=
      (sortOrdered_perm _ _).map Prod.fst
    rw [hperm.nodup_iff, List.map_map,
      show (Prod.fst ∘ fun s => (s, sumValueFor rows s)) = id from rfl,
      List.map_id]
    exact (rows.map (·.stage)).nodup_dedup
  · intro s t
    simp only [stageTotals]
    rw [mem_sortOrdered]
    constructor
    · intro h
      rcases List.mem_map.mp h with ⟨s1, hs1, heq⟩
      rcases Prod.mk.injEq .. ▸ heq with ⟨h1, h2⟩
      subst h1
      exact ⟨List.mem_dedup.mp hs1, h2.symm⟩
    · rintro ⟨hs, rfl⟩
      exact List.mem_map.mpr ⟨s, List.mem_dedup.mpr hs, rfl⟩

/-- C6: with zero opportunity rows the stage-totals query returns an empty
result and the Dashboard renders the no-data message, not a chart. -/
theorem dashboard_no_data (db : DB) (h : db.opportunities = []) :
    stageTotals db.opportunities = [] ∧ dashboardView db = DashView.noData := by
  constructor
  · rw [h]
    rfl
  · simp [dashboardView, h, stageTotals, sortOrdered]

/-- C6 witness: the fresh database has no opportunities; its stage totals
are empty and the Dashboard shows the no-data message. -/
theorem dashboard_no_data_witness :
    stageTotals emptyDB.opportunities = [] ∧
      dashboardView emptyDB = DashView.noData :=
  dashboard_no_data emptyDB rfl

/-- The account name-to-id dict only depends on the rows whose name is the
key looked up, in listing order: the `ORDER BY name` sort never reorders
rows of equal name (it is stable), and the dict ignores other keys. -/
theorem acctNameToId_filter (db : DB) (n : String) :
    acctNameToId db n =
      buildMap ((db.accounts.filter (fun a => a.name == n)).map
        (fun a => (a.name, a.id))) n := by
  rw [acctNameToId, accountsByName, buildMap_filter, List.filter_map]
  congr 1
  rw [show ((fun p : String × Nat => p.1 == n) ∘ fun a : Account => (a.name, a.id))
      = (fun a : Account => a.name == n) from rfl]
  rw [filter_sortOrdered _ _ ?_]
  intro a b hpa hpb
  simp at hpa hpb
  simp [hpa, hpb]

theorem buildMap_pair_append_two (F : List Account) (a1 a2 : Account)
    (n : String) (h2 : a2.name = n) :
    buildMap ((F ++ [a1, a2]).map (fun a => (a.name, a.id))) n = some a2.id := by
  rw [List.map_append,
    show List.map (fun a : Account => (a.name, a.id)) [a1, a2]
      = [(a1.name, a1.id), (a2.name, a2.id)] from rfl,
    show (F.map (fun a : Account => (a.name, a.id))) ++
        [(a1.name, a1.id), (a2.name, a2.id)]
      = ((F.map (fun a : Account => (a.name, a.id))) ++ [(a1.name, a1.id)])
          ++ [(a2.name, a2.id)] by simp,
    buildMap_concat]
  simp [h2]

/-- C3: creating two accounts with the same (non-empty) name leaves two
distinct rows in storage, with distinct ids, yet the name-to-id dict built
from the `ORDER BY name` listing maps that name to exactly one id — the id
of the most recently created row. -/
theorem duplicate_account_name_last_wins (db : DB) (n t1 r1 p1 k1 t2 r2 p2 k2 : String)
    (c1 c2 : ℚ) (hn : n ≠ "") :
    (accountsSave (accountsSave db true n t1 r1 c1 p1 k1).1
        true n t2 r2 c2 p2 k2).1.accounts =
      db.accounts ++ [⟨db.next_account_id, n, t1, r1, c1, p1, k1⟩,
        ⟨db.next_account_id + 1, n, t2, r2, c2, p2, k2⟩] ∧
    db.next_account_id ≠ db.next_account_id + 1 ∧
    acctNameToId (accountsSave (accountsSave db true n t1 r1 c1 p1 k1).1
        true n t2 r2 c2 p2 k2).1 n = some (db.next_account_id + 1) := by
  have hrows : (accountsSave (accountsSave db true n t1 r1 c1 p1 k1).1
      true n t2 r2 c2 p2 k2).1.accounts =
      db.accounts ++ [⟨db.next_account_id, n, t1, r1, c1, p1, k1⟩,
        ⟨db.next_account_id + 1, n, t2, r2, c2, p2, k2⟩] := by
    simp [accountsSave, hn]
  refine ⟨hrows, by omega, ?_⟩
  rw [acctNameToId_filter, hrows, List.filter_append]
  rw [show List.filter (fun a : Account => a.name == n)
      [⟨db.next_account_id, n, t1, r1, c1, p1, k1⟩,
       ⟨db.next_account_id + 1, n, t2, r2, c2, p2, k2⟩]
    = [⟨db.next_account_id, n, t1, r1, c1, p1, k1⟩,
       ⟨db.next_account_id + 1, n, t2, r2, c2, p2, k2⟩] by simp]
  exact buildMap_pair_append_two _ _ _ _ rfl

/-- C3 witness: from the fresh database, saving two accounts named
"Acme" stores two rows with ids 1 and 2, and the dict resolves "Acme"
to id 2, the most recently created row. -/
theorem duplicate_account_name_last_wins_witness :
    (accountsSave (accountsSave emptyDB true "Acme" "Developer" "North" 0 "30 days" "Low").1
        true "Acme" "Other" "South" 5 "60 days" "High").1.accounts =
      emptyDB.accounts ++ [⟨1, "Acme", "Developer", "North", 0, "30 days", "Low"⟩,
        ⟨2, "Acme", "Other", "South", 5, "60 days", "High"⟩] ∧
    (1 : Nat) ≠ 2 ∧
    acctNameToId (accountsSave (accountsSave emptyDB true "Acme" "Developer" "North" 0 "30 days" "Low").1
        true "Acme" "Other" "South" 5 "60 days" "High").1 "Acme" = some 2 :=
  duplicate_account_name_last_wins emptyDB "Acme" "Developer" "North" "30 days"
    "Low" "Other" "South" "60 days" "High" 0 5 (by decide)

/-- Looking up the blank selection in the account dict gives `None` when no
stored account has an empty name (the Accounts page guard never stores one). -/
theorem acctNameToId_blank (db : DB) (hA : ∀ a ∈ db.accounts, a.name ≠ "") :
    acctNameToId db "" = none := by
  rw [acctNameToId, accountsByName]
  apply buildMap_of_not_mem
  intro p hp
  rcases List.mem_map.mp hp with ⟨a, ha, rfl⟩
  exact hA a (mem_sortOrdered.mp ha)

theorem oppNameToId_blank (db : DB) (hO : ∀ o ∈ db.opportunities, o.name ≠ "") :
    oppNameToId db "" = none := by
  rw [oppNameToId, oppsByIdDesc]
  apply buildMap_of_not_mem
  intro p hp
  rcases List.mem_map.mp hp with ⟨o, ho, rfl⟩
  exact hO o (mem_sortOrdered.mp ho)

/-- C9: the Activities save handler inserts on every submission — no
required-field guard — and when the Account and Opportunity selectboxes are
left on the blank entry, `.get` yields `None` for each, so the stored row
has null `account_id` and `opportunity_id` instead of the operation
failing. Holds whenever no stored account or opportunity has an empty name
(the other pages' guards never store one). -/
theorem activities_insert_unguarded_blank_null (db : DB)
    (hA : ∀ a ∈ db.accounts, a.name ≠ "")
    (hO : ∀ o ∈ db.opportunities, o.name ≠ "") :
    (∀ acct opp t1 s1 d1 ow1 no1 : String, ∀ c1 : Bool,
      (activitiesSave db true acct opp t1 s1 d1 ow1 no1 c1).1.activities.length
        = db.activities.length + 1) ∧
    (∀ t1 s1 d1 ow1 no1 : String, ∀ c1 : Bool,
      (activitiesSave db true "" "" t1 s1 d1 ow1 no1 c1).1.activities
        = db.activities ++ [⟨db.next_activity_id, none, none, t1, s1, d1,
            ow1, no1, if c1 then 1 else 0⟩]) := by
  constructor
  · intro acct opp t1 s1 d1 ow1 no1 c1
    simp [activitiesSave]
  · intro t1 s1 d1 ow1 no1 c1
    simp [activitiesSave, acctNameToId_blank db hA, oppNameToId_blank db hO]

/-- C9 witness: submitting the Activities form on the fresh database with
blank Account and Opportunity selections and an empty subject still inserts
exactly one row, whose references are both null. -/
theorem activities_insert_unguarded_blank_null_witness :
    (activitiesSave emptyDB true "" "" "Bid Due" "" "2025-01-01" "Sales" "" false).1.activities
      = emptyDB.activities ++ [⟨1, none, none, "Bid Due", "", "2025-01-01", "Sales", "", 0⟩] :=
  (activities_insert_unguarded_blank_null emptyDB (by simp [emptyDB])
    (by simp [emptyDB])).2 "Bid Due" "" "2025-01-01" "Sales" "" false

theorem sortOrdered_desc_nat {β : Type} (key : β → Nat) (l : List β) :
    (sortOrdered (fun a b => key b < key a) l).Pairwise
      (fun x y => key y ≤ key x) := by
  have h := pairwise_sortOrdered (fun a b => decide (key b < key a))
    (fun x y hxy => by simp at hxy ⊢; omega)
    (fun x y z hxz => by simp at hxz ⊢; omega) l
  exact h.imp (fun hxy => by simp at hxy; omega)

theorem sortOrdered_asc_str {β : Type} (key : β → String) (l : List β) :
    (sortOrdered (fun a b => key a < key b) l).Pairwise
      (fun x y => key x ≤ key y) := by
  have h := pairwise_sortOrdered (fun a b => decide (key a < key b))
    (fun x y hxy => by
      rw [decide_eq_true_eq] at hxy
      exact decide_eq_false (lt_asymm hxy))
    (fun x y z hxz => by
      rw [decide_eq_true_eq] at hxz
      rcases lt_or_le (key x) (key y) with h1 | h1
      · exact Or.inl (decide_eq_true h1)
      · exact Or.inr (decide_eq_true (lt_of_le_of_lt h1 hxz))) l
  exact h.imp (fun hxy => le_of_not_lt (of_decide_eq_false hxy))

/-- C4: every entity listing returns all rows, ordered by descending id
(Accounts, Contacts, Opportunities and Quotes, the latter three joined to
their parent's display name), except Activities, which lists only rows
with `completed = 0` in ascending due-date order; and an account saved and
immediately listed is the first row of the listing. -/
theorem list_operations_order (db : DB) :
    (List.Perm (listAccounts db) db.accounts ∧
      (listAccounts db).Pairwise (fun x y => y.id ≤ x.id)) ∧
    (List.Perm (listContacts db) (db.contacts.map (contactRow db)) ∧
      (listContacts db).Pairwise (fun x y => y.id ≤ x.id)) ∧
    (List.Perm (listOpportunities db) (db.opportunities.map (oppRow db)) ∧
      (listOpportunities db).Pairwise (fun x y => y.id ≤ x.id)) ∧
    (List.Perm (listQuotes db) (db.quotes.map (quoteRow db)) ∧
      (listQuotes db).Pairwise (fun x y => y.id ≤ x.id)) ∧
    (List.Perm (listActivities db)
        (db.activities.filter (fun a => a.completed == 0)) ∧
      (listActivities db).Pairwise (fun x y => x.due_date ≤ y.due_date)) ∧
    (∀ name ty region terms risk : String, ∀ cl : ℚ,
      (∀ a ∈ db.accounts, a.id < db.next_account_id) → name ≠ "" →
      (listAccounts (accountsSave db true name ty region cl terms risk).1).head?
        = some ⟨db.next_account_id, name, ty, region, cl, terms, risk⟩) := by
  refine ⟨⟨sortOrdered_perm _ _, sortOrdered_desc_nat Account.id _⟩,
    ⟨sortOrdered_perm _ _, sortOrdered_desc_nat ContactRow.id _⟩,
    ⟨sortOrdered_perm _ _, sortOrdered_desc_nat OppRow.id _⟩,
    ⟨sortOrdered_perm _ _, sortOrdered_desc_nat QuoteRow.id _⟩,
    ⟨sortOrdered_perm _ _, sortOrdered_asc_str Activity.due_date _⟩, ?_⟩
  intro name ty region terms risk cl hwf hn
  have hrows : (accountsSave db true name ty region cl terms risk).1.accounts
      = db.accounts ++ [⟨db.next_account_id, name, ty, region, cl, terms, risk⟩] := by
    simp [accountsSave, hn]
  have hsorted := sortOrdered_desc_nat Account.id
    ((accountsSave db true name ty region cl terms risk).1.accounts)
  have hmem : (⟨db.next_account_id, name, ty, region, cl, terms, risk⟩ : Account)
      ∈ listAccounts (accountsSave db true name ty region cl terms risk).1 := by
    rw [listAccounts, mem_sortOrdered, hrows]
    simp
  cases hl : listAccounts (accountsSave db true name ty region cl terms risk).1 with
  | nil => rw [hl] at hmem; exact absurd hmem (List.not_mem_nil _)
  | cons hd tl =>
    have hhd : hd ∈ db.accounts ++ [⟨db.next_account_id, name, ty, region, cl, terms, risk⟩] := by
      rw [← hrows]
      have hmemL : hd ∈ listAccounts (accountsSave db true name ty region cl terms risk).1 := by
        rw [hl]
        exact List.mem_cons_self hd tl
      exact mem_sortOrdered.mp hmemL
    rw [hl] at hmem
    rcases List.mem_cons.mp hmem with heq | hmemtl
    · rw [heq]
      rfl
    · have hpw : (hd :: tl).Pairwise (fun x y : Account => y.id ≤ x.id) := by
        rw [← hl]
        exact sortOrdered_desc_nat Account.id _
      have hle : db.next_account_id ≤ hd.id :=
        (List.pairwise_cons.mp hpw).1 _ hmemtl
      rcases List.mem_append.mp hhd with hin | hnew
      · exact absurd (hwf hd hin) (by omega)
      · simp only [List.mem_singleton] at hnew
        rw [hnew]
        rfl

/-- C4 witness: on a database holding one account with id 1, saving a new
account and listing returns the new account (id 2) as the first row. -/
theorem list_operations_order_witness :
    (listAccounts (accountsSave
        { emptyDB with
            accounts := [⟨1, "Old", "Other", "", 0, "30 days", "Low"⟩]
            next_account_id := 2 }
        true "New" "Developer" "North" 10 "30 days" "Low").1).head?
      = some ⟨2, "New", "Developer", "North", 10, "30 days", "Low"⟩ :=
  (list_operations_order _).2.2.2.2.2 "New" "Developer" "North" "30 days" "Low" 10
    (by intro a ha; simp at ha; rw [ha]; decide) (by decide)

/-- C7: each guarded create silently skips the write when a required field
is empty — the database is unchanged and no message of any kind is shown —
and performs exactly one insert (appending exactly one new row) with the
success confirmation when every required field is non-empty. -/
theorem create_guards (db : DB) :
    (∀ ty region terms risk : String, ∀ cl : ℚ,
      accountsSave db true "" ty region cl terms risk = (db, none)) ∧
    (∀ name ty region terms risk : String, ∀ cl : ℚ, name ≠ "" →
      (accountsSave db true name ty region cl terms risk).1.accounts
          = db.accounts ++
            [⟨db.next_account_id, name, ty, region, cl, terms, risk⟩] ∧
        (accountsSave db true name ty region cl terms risk).2 = some "Saved.") ∧
    (∀ acct name role email phone : String, acct = "" ∨ name = "" →
      contactsSave db true acct name role email phone = (db, none)) ∧
    (∀ acct name role email phone : String, acct ≠ "" → name ≠ "" →
      (contactsSave db true acct name role email phone).1.contacts
          = db.contacts ++
            [⟨db.next_contact_id, acctNameToId db acct, name, role, email, phone⟩] ∧
        (contactsSave db true acct name role email phone).2 = some "Saved.") ∧
    (∀ acct name stage ecd ptype region src : String, ∀ value prob : ℚ,
      acct = "" ∨ name = "" →
      opportunitiesSave db true acct name stage ecd value ptype region prob src
        = (db, none)) ∧
    (∀ acct name stage ecd ptype region src : String, ∀ value prob : ℚ,
      acct ≠ "" → name ≠ "" →
      (opportunitiesSave db true acct name stage ecd value ptype region prob src).1.opportunities
          = db.opportunities ++
            [⟨db.next_opportunity_id, acctNameToId db acct, name, stage, ecd,
              some value, ptype, region, prob, src⟩] ∧
        (opportunitiesSave db true acct name stage ecd value ptype region prob src).2
          = some "Saved.") ∧
    (∀ opp qnum qdate status curr : String, ∀ total : ℚ, ∀ pic : Bool,
      opp = "" ∨ qnum = "" →
      quotesSave db true opp qnum qdate status total curr pic = (db, none)) ∧
    (∀ opp qnum qdate status curr : String, ∀ total : ℚ, ∀ pic : Bool,
      opp ≠ "" → qnum ≠ "" →
      (quotesSave db true opp qnum qdate status total curr pic).1.quotes
          = db.quotes ++
            [⟨db.next_quote_id, oppNameToId db opp, qnum, qdate, status, total,
              curr, if pic then 1 else 0⟩] ∧
        (quotesSave db true opp qnum qdate status total curr pic).2
          = some "Saved.") := by
  refine ⟨?_, ?_, ?_, ?_, ?_, ?_, ?_, ?_⟩
  · intro ty region terms risk cl
    simp [accountsSave]
  · intro name ty region terms risk cl hn
    constructor <;> simp [accountsSave, hn]
  · rintro acct name role email phone (rfl | rfl) <;> simp [contactsSave]
  · intro acct name role email phone ha hn
    constructor <;> simp [contactsSave, ha, hn]
  · rintro acct name stage ecd ptype region src value prob (rfl | rfl) <;>
      simp [opportunitiesSave]
  · intro acct name stage ecd ptype region src value prob ha hn
    constructor <;> simp [opportunitiesSave, ha, hn]
  · rintro opp qnum qdate status curr total pic (rfl | rfl) <;> simp [quotesSave]
  · intro opp qnum qdate status curr total pic ho hq
    constructor <;> simp [quotesSave, ho, hq]

/-- C7 witness: on the fresh database, saving an account with an empty name
writes nothing and shows nothing; with a non-empty name it appends exactly
one row and confirms; a contact with a blank account selection and a quote
with an empty quote number are silently skipped. -/
theorem create_guards_witness :
    accountsSave emptyDB true "" "Other" "North" 0 "30 days" "Low" = (emptyDB, none) ∧
    (accountsSave emptyDB true "Acme" "Other" "North" 0 "30 days" "Low").1.accounts
      = emptyDB.accounts ++ [⟨1, "Acme", "Other", "North", 0, "30 days", "Low"⟩] ∧
    (accountsSave emptyDB true "Acme" "Other" "North" 0 "30 days" "Low").2
      = some "Saved." ∧
    contactsSave emptyDB true "" "Bob" "PM" "b@x" "1" = (emptyDB, none) ∧
    quotesSave emptyDB true "Job" "" "2025-01-01" "Draft" 0 "GBP" false
      = (emptyDB, none) := by
  have h := create_guards emptyDB
  refine ⟨h.1 "Other" "North" "30 days" "Low" 0, ?_, ?_, ?_, ?_⟩
  · exact (h.2.1 "Acme" "Other" "North" "30 days" "Low" 0 (by decide)).1
  · exact (h.2.1 "Acme" "Other" "North" "30 days" "Low" 0 (by decide)).2
  · exact h.2.2.1 "" "Bob" "PM" "b@x" "1" (Or.inl rfl)
  · exact h.2.2.2.2.2.2.1 "Job" "" "2025-01-01" "Draft" "GBP" 0 false (Or.inr rfl)

/-- C8: exporting any of the six tables when it has zero rows yields a CSV
payload that is exactly the header line — no error; in particular every
table of the fixed internal set exports successfully on a fresh database. -/
theorem export_empty_header_only (t : String) (h : t ∈ exportTables) :
    exportCsv emptyDB t = String.intercalate "," (columnsOf t) ++ "\n" := by
  have hrows : tableCsvRows emptyDB t = [] := by
    simp only [exportTables, List.mem_cons, List.not_mem_nil, or_false] at h
    rcases h with rfl | rfl | rfl | rfl | rfl | rfl <;> rfl
  rw [exportCsv, hrows, toCsv, csvLine]
  show _ ++ String.join [] = _
  rw [show String.join [] = "" from rfl, String.append_empty]

/-- C8 witness: the accounts table of the fresh database exports to its
header line alone. -/
theorem export_empty_header_only_witness :
    exportCsv emptyDB "accounts"
      = String.intercalate "," (columnsOf "accounts") ++ "\n" :=
  export_empty_header_only "accounts" (by simp [exportTables])

theorem tableNames_applyCreate_mono (s : SchemaState) (t : TableDef)
    (u : String) (h : u ∈ tableNames s) : u ∈ tableNames (applyCreate s t) := by
  unfold applyCreate
  by_cases hc : s.any (fun v => v.name == t.name) = true
  · rw [if_pos hc]
    exact h
  · rw [if_neg hc]
    simp only [tableNames, List.map_append, List.mem_append]
    exact Or.inl h

theorem tableNames_applyCreate_self (s : SchemaState) (t : TableDef) :
    t.name ∈ tableNames (applyCreate s t) := by
  unfold applyCreate
  by_cases hc : s.any (fun v => v.name == t.name) = true
  · rw [if_pos hc]
    rcases List.any_eq_true.mp hc with ⟨v, hv, hveq⟩
    rw [← show v.name = t.name by simpa using hveq]
    exact List.mem_map.mpr ⟨v, hv, rfl⟩
  · rw [if_neg hc]
    simp [tableNames]

theorem tableNames_foldl_mono (stmts : List TableDef) :
    ∀ s : SchemaState, ∀ u ∈ tableNames s,
      u ∈ tableNames (stmts.foldl applyCreate s) := by
  induction stmts with
  | nil => intro s u h; exact h
  | cons t rest ih =>
    intro s u h
    exact ih (applyCreate s t) u (tableNames_applyCreate_mono s t u h)

theorem tableNames_foldl_covers (stmts : List TableDef) :
    ∀ s : SchemaState, ∀ t ∈ stmts,
      t.name ∈ tableNames (stmts.foldl applyCreate s) := by
  induction stmts with
  | nil => intro s t h; exact absurd h (List.not_mem_nil t)
  | cons t1 rest ih =>
    intro s t h
    rcases List.mem_cons.mp h with rfl | h
    · exact tableNames_foldl_mono rest (applyCreate s t) t.name
        (tableNames_applyCreate_self s t)
    · exact ih (applyCreate s t1) t h

theorem applyCreate_of_mem (s : SchemaState) (t : TableDef)
    (h : t.name ∈ tableNames s) : applyCreate s t = s := by
  unfold applyCreate
  rcases List.mem_map.mp h with ⟨v, hv, hveq⟩
  rw [if_pos (List.any_eq_true.mpr ⟨v, hv, by simp [hveq]⟩)]

theorem foldl_applyCreate_of_covered (stmts : List TableDef) :
    ∀ s : SchemaState, (∀ t ∈ stmts, t.name ∈ tableNames s) →
      stmts.foldl applyCreate s = s := by
  induction stmts with
  | nil => intro s _; rfl
  | cons t rest ih =>
    intro s h
    have h1 : applyCreate s t = s :=
      applyCreate_of_mem s t (h t (List.mem_cons_self t rest))
    show rest.foldl applyCreate (applyCreate s t) = s
    rw [h1]
    exact ih s (fun u hu => h u (List.mem_cons_of_mem t hu))

theorem nodup_applyCreate (s : SchemaState) (t : TableDef)
    (h : (tableNames s).Nodup) : (tableNames (applyCreate s t)).Nodup := by
  unfold applyCreate
  by_cases hc : s.any (fun v => v.name == t.name) = true
  · rw [if_pos hc]
    exact h
  · rw [if_neg hc]
    simp only [tableNames, List.map_append, List.map_cons, List.map_nil]
    rw [List.nodup_append]
    refine ⟨h, List.nodup_singleton _, ?_⟩
    intro u hu hmem
    simp only [List.mem_singleton] at hmem
    subst hmem
    rcases List.mem_map.mp hu with ⟨v, hv, hveq⟩
    exact (List.any_eq_true.mpr ⟨v, hv, by simp [hveq]⟩) |> hc

theorem nodup_foldl_applyCreate (stmts : List TableDef) :
    ∀ s : SchemaState, (tableNames s).Nodup →
      (tableNames (stmts.foldl applyCreate s)).Nodup := by
  induction stmts with
  | nil => intro s h; exact h
  | cons t rest ih => intro s h; exact ih _ (nodup_applyCreate s t h)

/-- C5: `init_schema` is idempotent — running it a second time changes
nothing (each `CREATE TABLE IF NOT EXISTS` finds its table present), so the
storage structure after the second run equals the structure after the
first, and no duplicate tables appear (table names stay duplicate-free). -/
theorem init_schema_idempotent (s : SchemaState) :
    init_schema (init_schema s) = init_schema s ∧
    ((tableNames s).Nodup → (tableNames (init_schema s)).Nodup) := by
  constructor
  · exact foldl_applyCreate_of_covered schemaStmts (init_schema s)
      (fun t ht => tableNames_foldl_covers schemaStmts s t ht)
  · exact nodup_foldl_applyCreate schemaStmts s

/-- C5 witness: from empty storage, the second `init_schema` run returns
exactly the six tables the first created, with duplicate-free names. -/
theorem init_schema_idempotent_witness :
    init_schema (init_schema []) = init_schema [] ∧
    (tableNames (init_schema [])).Nodup :=
  ⟨(init_schema_idempotent []).1, (init_schema_idempotent []).2 (by decide)⟩

/-- C10: the `init_schema` statement loop is not atomic: each statement runs
in its own transaction, so when the statements of `pre` succeed (committing
state `s1`) and the next statement raises, the loop stops with the committed
state `s1` — the tables created by the earlier statements are not rolled
back. -/
theorem runStmts_partial (exec : TableDef → SchemaState → Option SchemaState)
    (pre : List TableDef) (st : TableDef) (post : List TableDef) :
    ∀ s s1 : SchemaState, runAll exec pre s = some s1 → exec st s1 = none →
      runStmts exec (pre ++ st :: post) s = (s1, false) := by
  induction pre with
  | nil =>
    intro s s1 hpre hfail
    have hs : s = s1 := by simpa [runAll] using hpre
    subst hs
    simp [runStmts, hfail]
  | cons p rest ih =>
    intro s s1 hpre hfail
    cases hp : exec p s with
    | none => rw [runAll, hp] at hpre; exact absurd hpre (by simp)
    | some s2 =>
      rw [runAll, hp] at hpre
      show runStmts exec (p :: (rest ++ st :: post)) s = (s1, false)
      rw [runStmts, hp]
      exact ih s2 s1 hpre hfail

/-- C10 witness: with a backend that raises on the `quotes` statement, the
loop over the six schema statements stops after committing the first three
tables — accounts, contacts and opportunities remain created. -/
theorem runStmts_partial_witness :
    runStmts execFailQuotes schemaStmts [] =
      ([⟨"accounts", accountsCols⟩, ⟨"contacts", contactsCols⟩,
        ⟨"opportunities", opportunitiesCols⟩], false) :=
  runStmts_partial execFailQuotes
    [⟨"accounts", accountsCols⟩, ⟨"contacts", contactsCols⟩,
      ⟨"opportunities", opportunitiesCols⟩]
    ⟨"quotes", quotesCols⟩
    [⟨"quote_items", quoteItemsCols⟩, ⟨"activities", activitiesCols⟩]
    [] _ (by decide) (by decide)

end CRM
